import Mathlib

/-!
Verification of the imscale-service HTTP image server (src/src/main.rs).

The two request handlers, `list_handler` and `download_handler`, are embedded
shallowly.  Filesystem and image-library effects (metadata lookup, directory
enumeration, format sniffing, decoding, orientation reading, encoding,
timestamp formatting) are supplied by explicit "world" records so that each
handler becomes a pure function of the client path, the query parameters and
the world.  Rust `std::path` semantics (component parsing, `join`,
`starts_with`) are embedded directly, since the containment check of the
handlers depends on them.
-/

namespace Imscale

/-- Rust `std::path::Component` on a Unix platform: the root directory `/`, a
leading `.`, a `..` component, or a normal named component. -/
inductive Component where
  | rootDir
  | curDir
  | parentDir
  | normal (name : String)
deriving DecidableEq, Repr

/-- Splits a string at every occurrence of a separator character, keeping empty
pieces, like Rust's `str::split(char)`: `splitChar '/' "" = [""]`,
`splitChar '/' "a//b" = ["a", "", "b"]`. -/
def splitChar (sep : Char) (s : String) : List String :=
  (s.toList.foldr
    (fun c groups =>
      match groups with
      | [] => [[c]]
      | g :: gs => if c = sep then [] :: g :: gs else (c :: g) :: gs)
    [[]]).map (fun cs => String.mk cs)

/-- Rust `path.split('/')` as used by the download handler's per-segment
hidden-path check. -/
def splitSlash (s : String) : List String :=
  splitChar '/' s

/-- Whether the first character of a string is `.`; Rust `str::starts_with(".")`. -/
def headIsDot (s : String) : Bool :=
  match s.toList with
  | c :: _ => c = '.'
  | [] => false

/-- Whether the first character of a string is `/`; on Unix this is Rust
`Path::is_absolute` / `has_root` for the strings the handlers build. -/
def headIsSlash (s : String) : Bool :=
  match s.toList with
  | c :: _ => c = '/'
  | [] => false

/-- Whether the last character of a string is `/`. -/
def lastIsSlash (s : String) : Bool :=
  match s.toList.getLast? with
  | some c => c = '/'
  | none => false

/-- One path component from a non-empty, non-`.` piece of a path string:
`..` becomes `ParentDir`, everything else is a `Normal` component. -/
def mkComponent (s : String) : Component :=
  if s = ".." then Component.parentDir else Component.normal s

/-- Rust `Path::components()` on Unix: split on `/`, drop empty pieces and
`.` pieces (a `.` survives only at the very beginning of a relative path),
a leading `/` yields `RootDir`, and `..` yields `ParentDir`.  This is the
normalization Rust's `Path::starts_with` compares under. -/
def parsePath (s : String) : List Component :=
  let parts := (splitSlash s).filter (fun p => p ≠ "")
  if headIsSlash s then
    Component.rootDir :: ((parts.filter (fun p => p ≠ ".")).map mkComponent)
  else
    match parts with
    | [] => []
    | p :: rest =>
      if p = "." then
        Component.curDir :: ((rest.filter (fun q => q ≠ ".")).map mkComponent)
      else
        ((p :: rest).filter (fun q => q ≠ ".")).map mkComponent

/-- Rust `Path::new(base).join(p)` at the string level: an absolute `p`
replaces the base, otherwise `p` is appended after a `/` separator
(no separator is added when the base already ends in one or is empty). -/
def joinStr (base p : String) : String :=
  if headIsSlash p then p
  else if base = "" then p
  else if lastIsSlash base then base ++ p
  else base ++ "/" ++ p

/-- Rust `Path::file_name()`: the final `Normal` component, `none` when the
path ends in `..`, is a bare root, or is empty. -/
def fileName (comps : List Component) : Option String :=
  match comps.getLast? with
  | some (Component.normal s) => some s
  | _ => none

/-- Rust `Path::extension()` restricted to a file name: the part after the
last `.`, except that a dot at position 0 does not count as a separator
(so `.gitignore` has no extension) and `..` has none. -/
def extension (name : String) : Option String :=
  if name = ".." then none
  else
    match splitChar '.' name with
    | [] => none
    | [_] => none
    | first :: rest =>
      if first = "" ∧ rest.length = 1 then none
      else some (rest.getLastD "")

/-- ASCII lowercasing of a string; models Rust `str::to_lowercase` on the
ASCII file-name extensions the classifier compares against. -/
def lowerAscii (s : String) : String :=
  String.mk (s.toList.map (fun c => if 'A' ≤ c ∧ c ≤ 'Z' then Char.ofNat (c.toNat + 32) else c))

/-- The match arms of `get_entry_type` in main.rs lines 34-37: the image
extension allowlist. -/
def isImageExt (e : String) : Bool :=
  e = "jpg" || e = "jpeg" || e = "png" || e = "gif" || e = "bmp" ||
  e = "ico" || e = "tiff" || e = "webp" || e = "avif"

/-- The image-extension allowlist as a list, for stating membership. -/
def imageExtensions : List String :=
  ["jpg", "jpeg", "png", "gif", "bmp", "ico", "tiff", "webp", "avif"]

/-- `get_entry_type` (main.rs lines 28-40).  `isDir` is the result of the
`path.is_dir()` filesystem probe and `ext` the result of
`path.extension().and_then(|s| s.to_str())`. -/
def get_entry_type (isDir : Bool) (ext : Option String) : String :=
  if isDir then "directory"
  else
    match ext with
    | some e => if isImageExt (lowerAscii e) then "image" else "file"
    | none => "file"

/-- The three HTTP failure statuses the handlers return. -/
inductive Status where
  | forbidden
  | notFound
  | internalError
deriving DecidableEq, Repr

/-- Result of `fs::metadata`: directory flag, byte length, and the
modification time (`modified()` is fallible, hence an `Option`; timestamps
are abstracted to `Nat`). -/
structure FsMetadata where
  isDir : Bool
  len : Nat
  modified : Option Nat
deriving DecidableEq, Repr

/-- One child produced by `fs::read_dir`: its base name, the result of the
`path.is_dir()` probe used by `get_entry_type`, and the result of
`fs::metadata(&path)` (`none` when unreadable). -/
structure DirEntry where
  name : String
  isDir : Bool
  meta : Option FsMetadata
deriving DecidableEq, Repr

/-- One row of the JSON array returned for a directory listing
(main.rs lines 83-88).  The RFC-3339 formatting of the timestamp is
abstracted away; `modified` is the raw timestamp. -/
structure Entry where
  name : String
  type : String
  size : Nat
  modified : Nat
deriving DecidableEq, Repr

/-- The single JSON object returned for a file in detail mode
(main.rs lines 104-112).  `name` is `full_path.file_name()` (the source
unwraps it; the embedding keeps the `Option`). -/
structure Detail where
  name : Option String
  size : Nat
  modified : Nat
  width : Nat
  height : Nat
  download_url : String
  type : String
deriving DecidableEq, Repr

/-- The successful body of the listing endpoint: a JSON array of entries for
a directory, or a single detail object for a file. -/
inductive ListResponse where
  | dir (entries : List Entry)
  | file (detail : Detail)
deriving DecidableEq, Repr

/-- The effectful environment of one `list_handler` request: the `IMAGE_DIR`
environment variable, the best-effort URL decoder (`urlencoding::decode`,
`none` on decode failure), the `fs::metadata` result for the joined path, the
`fs::read_dir` listing (`none` = read_dir failed; an inner `none` = one
iteration step failed), the `image::image_dimensions` probe result, the
`path.is_dir()` probe used for the detail-mode type, and the current time
used as the fallback modification timestamp. -/
structure ListWorld where
  imageDir : Option String
  decode : String → Option String
  metadata : Option FsMetadata
  readDir : Option (List (Option DirEntry))
  imageDimensions : Option (Nat × Nat)
  fullIsDir : Bool
  now : Nat

/-- The joined path the listing handler checks and probes
(main.rs lines 44-50): the base directory itself for an empty client path,
otherwise the URL-decoded client path (falling back to the raw path when
decoding fails) joined onto the base directory. -/
def listFullPath (w : ListWorld) (path : String) : List Component :=
  let base := w.imageDir.getD "images"
  if path = "" then parsePath base
  else parsePath (joinStr base ((w.decode path).getD path))

/-- The loop of main.rs lines 67-89: one pass over the `read_dir` iterator.
A failed iteration step aborts with InternalError; hidden names and children
with unreadable metadata are skipped; every other child yields an `Entry`. -/
def entriesLoop (now : Nat) : List (Option DirEntry) → Except Status (List Entry)
  | [] => Except.ok []
  | none :: _ => Except.error Status.internalError
  | some e :: rest =>
    if headIsDot e.name then entriesLoop now rest
    else
      match e.meta with
      | none => entriesLoop now rest
      | some m =>
        match entriesLoop now rest with
        | Except.error s => Except.error s
        | Except.ok es =>
          Except.ok ({ name := e.name,
                       type := get_entry_type e.isDir (extension e.name),
                       size := m.len,
                       modified := m.modified.getD now } :: es)

/-- `list_handler` (main.rs lines 42-114).  The containment-or-hidden check of
line 55 (`!full_path.starts_with(&base_dir) || path.starts_with(".")`) guards
everything; then `fs::metadata` decides NotFound; a directory is enumerated
via `entriesLoop`; a file yields the detail object with the dimension probe
falling back to `(0, 0)`. -/
def list_handler (w : ListWorld) (path : String) : Except Status ListResponse :=
  let full := listFullPath w path
  if !((parsePath (w.imageDir.getD "images")).isPrefixOf full) || headIsDot path then
    Except.error Status.forbidden
  else
    match w.metadata with
    | none => Except.error Status.notFound
    | some md =>
      if md.isDir then
        match w.readDir with
        | none => Except.error Status.internalError
        | some items => (entriesLoop w.now items).map ListResponse.dir
      else
        Except.ok (ListResponse.file
          { name := fileName full,
            size := md.len,
            modified := md.modified.getD w.now,
            width := (w.imageDimensions.getD (0, 0)).1,
            height := (w.imageDimensions.getD (0, 0)).2,
            download_url := "/download/" ++ path,
            type := get_entry_type w.fullIsDir ((fileName full).bind extension) })

/-- The `ResizeParams` query struct (main.rs lines 21-26).  `preserveAspect`
embeds the `preserve_aspect_ratio` field. -/
structure ResizeParams where
  width : Option Nat
  height : Option Nat
  preserveAspect : Option Bool
deriving DecidableEq, Repr

/-- An in-memory decoded pixel buffer: its dimensions plus an opaque content
tag, standing for the pixel data of a `DynamicImage`. -/
structure Image where
  width : Nat
  height : Nat
  data : Nat
deriving DecidableEq, Repr

/-- Round-half-away-from-zero on a nonnegative rational, as `f64::round`
behaves on the nonnegative values produced by the resize computation. -/
def ratRound (q : ℚ) : Nat :=
  (Int.floor (q + 1 / 2)).toNat

/-- Trusted library boundary, modelled from the image crate's
`resize_dimensions(width, height, nwidth, nheight, fill = false)`: scale both
dimensions by the smaller of the two bound ratios, round, and clamp to at
least 1.  (The crate's `u32::MAX` saturation branch is omitted; dimensions
are unbounded naturals here.) -/
def resizeDimensions (ow oh nw nh : Nat) : Nat × Nat :=
  let wq : ℚ := (nw : ℚ) / (ow : ℚ)
  let hq : ℚ := (nh : ℚ) / (oh : ℚ)
  let r := min wq hq
  (max (ratRound ((ow : ℚ) * r)) 1, max (ratRound ((oh : ℚ) * r)) 1)

/-- Trusted library boundary: `DynamicImage::resize`, the aspect-ratio
preserving scale-to-fit used when `preserve_aspect_ratio` is true. -/
def resize (img : Image) (nw nh : Nat) : Image :=
  { img with
    width := (resizeDimensions img.width img.height nw nh).1,
    height := (resizeDimensions img.width img.height nw nh).2 }

/-- Trusted library boundary: `DynamicImage::resize_exact`, which produces
exactly the requested dimensions. -/
def resize_exact (img : Image) (nw nh : Nat) : Image :=
  { img with width := nw, height := nh }

/-- The resize step of `download_handler` (main.rs lines 182-190): resize only
when both `width` and `height` are present, choosing `resize` when
`preserve_aspect_ratio` is true and `resize_exact` when it is false or absent
(`unwrap_or(false)`). -/
def processImage (params : ResizeParams) (img : Image) : Image :=
  match params.width, params.height with
  | some w, some h =>
    if params.preserveAspect.getD false then resize img w h else resize_exact img w h
  | _, _ => img

/-- The subset of `image::ImageFormat` variants relevant to the handler's
content-type table, plus representatives for the wildcard arm. -/
inductive ImageFormat where
  | png
  | jpeg
  | gif
  | webp
  | avif
  | tiff
  | bmp
  | ico
  | pnm
  | tga
  | qoi
deriving DecidableEq, Repr

/-- The content-type table of main.rs lines 200-208. -/
def contentTypeFor : ImageFormat → String
  | ImageFormat.png => "image/png"
  | ImageFormat.jpeg => "image/jpeg"
  | ImageFormat.gif => "image/gif"
  | ImageFormat.webp => "image/webp"
  | ImageFormat.avif => "image/avif"
  | ImageFormat.tiff => "image/tiff"
  | _ => "application/octet-stream"

/-- A successful download response: the three headers the handler sets and the
encoded byte buffer. -/
structure DownloadResponse where
  contentType : String
  lastModified : String
  cacheControl : String
  body : List Nat
deriving DecidableEq, Repr

/-- The effectful environment of one `download_handler` request.
`guessResult` models `reader.with_guessed_format()`: `none` is an I/O error
during sniffing, `some fmtOpt` a successful sniff whose content-based guess is
`fmtOpt` (`some none` = format undetermined).  `intoDecoderOk` models the
fallible decoder construction for a determined format, `orientationVal` the
EXIF orientation read, `decodeResult` the pixel decode, `applyOrientation`
the library's orientation normalization, `encode` the fallible re-encoder,
and `rfc2822` the timestamp formatter used for Last-Modified. -/
structure DownloadWorld where
  imageDir : Option String
  metadata : Option FsMetadata
  openOk : Bool
  guessResult : Option (Option ImageFormat)
  intoDecoderOk : Bool
  orientationVal : Option Nat
  decodeResult : Option Image
  applyOrientation : Nat → Image → Image
  encode : Image → ImageFormat → Option (List Nat)
  rfc2822 : Nat → String
  now : Nat

/-- The joined path the download handler checks (main.rs line 123): the raw
(undecoded) client path joined onto the base directory. -/
def downloadFullPath (w : DownloadWorld) (path : String) : List Component :=
  parsePath (joinStr (w.imageDir.getD "images") path)

/-- `download_handler` (main.rs lines 116-230).  In source order: the
per-segment hidden check (line 117), the containment check (line 126),
`fs::metadata` (NotFound), the modification timestamp with current-time
fallback (line 139), `ImageReader::open` (NotFound), `with_guessed_format`
(I/O failure → InternalError), the `unwrap_or(Png)` format default
(line 157), decoder construction — which, per the image crate's
`require_format`, fails whenever the sniffed format is undetermined —
(InternalError), the orientation read (InternalError), the pixel decode
(InternalError), orientation normalization, the conditional resize, the
re-encode into the detected format (InternalError), and the response headers
of lines 200-222. -/
def download_handler (w : DownloadWorld) (path : String) (params : ResizeParams) :
    Except Status DownloadResponse :=
  if (splitSlash path).any (fun seg => headIsDot seg) then
    Except.error Status.forbidden
  else if !((parsePath (w.imageDir.getD "images")).isPrefixOf (downloadFullPath w path)) then
    Except.error Status.forbidden
  else
    match w.metadata with
    | none => Except.error Status.notFound
    | some md =>
      let modifiedTime := md.modified.getD w.now
      if !w.openOk then Except.error Status.notFound
      else
        match w.guessResult with
        | none => Except.error Status.internalError
        | some fmtOpt =>
          let format := fmtOpt.getD ImageFormat.png
          if !(fmtOpt.isSome && w.intoDecoderOk) then Except.error Status.internalError
          else
            match w.orientationVal with
            | none => Except.error Status.internalError
            | some o =>
              match w.decodeResult with
              | none => Except.error Status.internalError
              | some img0 =>
                let processed := processImage params (w.applyOrientation o img0)
                match w.encode processed format with
                | none => Except.error Status.internalError
                | some bytes =>
                  Except.ok { contentType := contentTypeFor format,
                              lastModified := w.rfc2822 modifiedTime,
                              cacheControl := "public, max-age=31536000",
                              body := bytes }

/-- Lexical resolution of `..` and `.` components, used only to state that a
concrete joined path resolves outside the base directory. -/
def normalizeComps (cs : List Component) : List Component :=
  cs.foldl
    (fun acc c =>
      match c with
      | Component.parentDir =>
        match acc.getLast? with
        | some (Component.normal _) => acc.dropLast
        | _ => acc ++ [c]
      | Component.curDir => acc
      | _ => acc ++ [c])
    []

/-- The spec-side description of one listing row: skip hidden names and
children with unreadable metadata, classify the rest. -/
def entryOf (now : Nat) (e : DirEntry) : Option Entry :=
  if headIsDot e.name then none
  else
    e.meta.map (fun m =>
      { name := e.name,
        type := get_entry_type e.isDir (extension e.name),
        size := m.len,
        modified := m.modified.getD now })

/-- Query parameters with neither dimension supplied. -/
def p0 : ResizeParams :=
  { width := none, height := none, preserveAspect := none }

/-- A 200x200 source image. -/
def img200 : Image :=
  { width := 200, height := 200, data := 11 }

/-- A 4x3 source image. -/
def img43 : Image :=
  { width := 4, height := 3, data := 7 }

/-- 100x50 request with aspect-ratio preservation. -/
def pTrue : ResizeParams :=
  { width := some 100, height := some 50, preserveAspect := some true }

/-- 100x50 request without aspect-ratio preservation. -/
def pFalse : ResizeParams :=
  { width := some 100, height := some 50, preserveAspect := some false }

/-- The four children of the spec's example directory: an image, a plain
file, a subdirectory, and a dotfile. -/
def demoEntries : List DirEntry :=
  [{ name := "a.png", isDir := false,
     meta := some { isDir := false, len := 3, modified := some 2 } },
   { name := "notes.txt", isDir := false,
     meta := some { isDir := false, len := 4, modified := some 2 } },
   { name := "sub", isDir := true,
     meta := some { isDir := true, len := 0, modified := some 2 } },
   { name := ".hidden.png", isDir := false,
     meta := some { isDir := false, len := 5, modified := some 2 } }]

/-- A list-world whose resolved path is a directory with `demoEntries` as
children. -/
def wListDir : ListWorld :=
  { imageDir := none, decode := fun s => some s,
    metadata := some { isDir := true, len := 0, modified := some 1 },
    readDir := some (demoEntries.map some),
    imageDimensions := none, fullIsDir := true, now := 0 }

/-- A list-world whose resolved path is a single file whose dimension probe
fails. -/
def wListFile : ListWorld :=
  { imageDir := none, decode := fun s => some s,
    metadata := some { isDir := false, len := 8, modified := some 3 },
    readDir := none, imageDimensions := none, fullIsDir := false, now := 0 }

/-- A list-world in which every filesystem operation fails. -/
def wLEmpty : ListWorld :=
  { imageDir := none, decode := fun s => some s, metadata := none,
    readDir := none, imageDimensions := none, fullIsDir := false, now := 0 }

/-- A download-world in which every filesystem operation fails. -/
def wDEmpty : DownloadWorld :=
  { imageDir := none, metadata := none, openOk := false, guessResult := none,
    intoDecoderOk := false, orientationVal := none, decodeResult := none,
    applyOrientation := fun _ i => i, encode := fun _ _ => none,
    rfc2822 := fun n => toString n, now := 0 }

/-- A download-world in which every step succeeds: a PNG sniff, a 4x3 decode,
identity orientation, and an encoder returning the bytes `[1, 2, 3]`. -/
def okDownloadWorld : DownloadWorld :=
  { imageDir := none,
    metadata := some { isDir := false, len := 10, modified := some 5 },
    openOk := true,
    guessResult := some (some ImageFormat.png),
    intoDecoderOk := true,
    orientationVal := some 1,
    decodeResult := some img43,
    applyOrientation := fun _ i => i,
    encode := fun _ _ => some [1, 2, 3],
    rfc2822 := fun n => toString n,
    now := 0 }

/-- Like `okDownloadWorld`, but the format sniff itself fails with an I/O
error (`with_guessed_format` returns `Err`). -/
def wGuessErr : DownloadWorld :=
  { okDownloadWorld with guessResult := none }

/-- Like `okDownloadWorld`, but the sniff succeeds without determining a
format (`reader.format()` is `None`). -/
def wGuessUnknown : DownloadWorld :=
  { okDownloadWorld with guessResult := some none }

/-- The response `okDownloadWorld` produces for path "a" and no parameters. -/
def cOkR : DownloadResponse :=
  { contentType := "image/png",
    lastModified := "5",
    cacheControl := "public, max-age=31536000",
    body := [1, 2, 3] }

end Imscale

deriving instance DecidableEq for Except

namespace Imscale

/-- C2: the hidden-path checks are asymmetric.  Whenever the raw client path
begins with `.`, the listing handler returns Forbidden; whenever any
`/`-separated segment of the download path begins with `.`, the download
handler returns Forbidden.  The listing handler inspects only the leading
character of the whole raw string: a hidden segment in a later position (here
`a/.hidden`, with a missing-file world) is not rejected by it. -/
theorem c2_hidden_check_asymmetry :
    (∀ (w : ListWorld) (path : String), headIsDot path = true →
        list_handler w path = Except.error Status.forbidden) ∧
    (∀ (w : DownloadWorld) (path : String) (params : ResizeParams),
        (splitSlash path).any (fun seg => headIsDot seg) = true →
        download_handler w path params = Except.error Status.forbidden) ∧
    list_handler wLEmpty "a/.hidden" = Except.error Status.notFound := by
  refine ⟨?_, ?_, by decide⟩
  · intro w path h
    simp [list_handler, h]
  · intro w path params h
    simp [download_handler, h]

/-- Witness for c2_hidden_check_asymmetry at the concrete paths `.x` and
`a/.x`. -/
theorem c2_hidden_check_witness :
    list_handler wLEmpty ".x" = Except.error Status.forbidden ∧
    download_handler wDEmpty "a/.x" p0 = Except.error Status.forbidden :=
  ⟨c2_hidden_check_asymmetry.1 wLEmpty ".x" (by decide),
   c2_hidden_check_asymmetry.2.1 wDEmpty "a/.x" p0 (by decide)⟩

/-- C10: in the download handler the per-segment hidden check runs before any
filesystem access, so a path with a hidden segment is Forbidden even in a
world where the target file does not exist (`metadata = none`): Forbidden
takes precedence over NotFound. -/
theorem c10_forbidden_before_fs :
    ∀ (w : DownloadWorld) (path : String) (params : ResizeParams),
      w.metadata = none →
      (splitSlash path).any (fun seg => headIsDot seg) = true →
      download_handler w path params = Except.error Status.forbidden := by
  intro w path params _ h
  simp [download_handler, h]

/-- Witness for c10_forbidden_before_fs on a nonexistent hidden path. -/
theorem c10_forbidden_before_fs_witness :
    download_handler wDEmpty ".hidden/img.png" p0 = Except.error Status.forbidden :=
  c10_forbidden_before_fs wDEmpty ".hidden/img.png" p0 rfl (by decide)

/-- C1 counterexample: the client path `a/../../etc/passwd` contains a
`..`-style escape, and its join onto the base directory `images` lexically
resolves outside the base directory, yet the listing handler does not return
Forbidden (here it reaches the filesystem and reports NotFound): Rust's
component-wise `starts_with` accepts `images/a/../../etc/passwd` as starting
with `images`, and the leading-dot check does not fire. -/
theorem c1_listing_escape_cex :
    (".." ∈ splitSlash "a/../../etc/passwd") ∧
    ((parsePath "images").isPrefixOf
        (normalizeComps (parsePath (joinStr "images" "a/../../etc/passwd"))) = false) ∧
    list_handler wLEmpty "a/../../etc/passwd" = Except.error Status.notFound ∧
    list_handler wLEmpty "a/../../etc/passwd" ≠ Except.error Status.forbidden :=
  ⟨by decide, by decide, by decide, by decide⟩

/-- C1 amended: the download handler returns Forbidden for every path
containing a `..` segment (it is caught by the per-segment hidden check,
since `..` begins with `.`) and for every path whose joined path does not
component-wise start with the base directory; the listing handler returns
Forbidden whenever the joined path does not component-wise start with the
base directory, but a `..`-style escape in a non-leading position is not
rejected by the listing handler. -/
theorem c1_containment_amended :
    (∀ (w : DownloadWorld) (path : String) (params : ResizeParams),
        ".." ∈ splitSlash path →
        download_handler w path params = Except.error Status.forbidden) ∧
    (∀ (w : DownloadWorld) (path : String) (params : ResizeParams),
        (parsePath (w.imageDir.getD "images")).isPrefixOf (downloadFullPath w path) = false →
        download_handler w path params = Except.error Status.forbidden) ∧
    (∀ (w : ListWorld) (path : String),
        (parsePath (w.imageDir.getD "images")).isPrefixOf (listFullPath w path) = false →
        list_handler w path = Except.error Status.forbidden) := by
  refine ⟨?_, ?_, ?_⟩
  · intro w path params h
    have hany : (splitSlash path).any (fun seg => headIsDot seg) = true :=
      List.any_eq_true.mpr ⟨"..", h, by decide⟩
    simp [download_handler, hany]
  · intro w path params h
    by_cases hseg : (splitSlash path).any (fun seg => headIsDot seg) = true
    · simp [download_handler, hseg]
    · simp [download_handler, hseg, h]
  · intro w path h
    simp [list_handler, h]

/-- Witness for c1_containment_amended: a leading `..` download path, an
absolute download path, and an absolute listing path are all Forbidden. -/
theorem c1_containment_witness :
    download_handler wDEmpty "../x" p0 = Except.error Status.forbidden ∧
    download_handler wDEmpty "/abs" p0 = Except.error Status.forbidden ∧
    list_handler wLEmpty "/abs" = Except.error Status.forbidden :=
  ⟨c1_containment_amended.1 wDEmpty "../x" p0 (by decide),
   c1_containment_amended.2.1 wDEmpty "/abs" p0 (by decide),
   c1_containment_amended.2.2 wLEmpty "/abs" (by decide)⟩

/-- Shape of every successful download: each fallible step of the pipeline
must have succeeded, the format must have been determined by the sniff, and
the response is exactly the re-encoding of the processed, orientation-applied
decode with the three headers of main.rs lines 200-222. -/
theorem download_ok_shape (w : DownloadWorld) (path : String) (params : ResizeParams)
    (r : DownloadResponse) (h : download_handler w path params = Except.ok r) :
    ∃ md fmt o img0 bs,
      w.metadata = some md ∧ w.openOk = true ∧ w.guessResult = some (some fmt) ∧
      w.intoDecoderOk = true ∧ w.orientationVal = some o ∧ w.decodeResult = some img0 ∧
      w.encode (processImage params (w.applyOrientation o img0)) fmt = some bs ∧
      r = { contentType := contentTypeFor fmt,
            lastModified := w.rfc2822 (md.modified.getD w.now),
            cacheControl := "public, max-age=31536000",
            body := bs } := by
  by_cases hseg : (splitSlash path).any (fun seg => headIsDot seg) = true
  · simp [download_handler, hseg] at h
  by_cases hpre : (parsePath (w.imageDir.getD "images")).isPrefixOf (downloadFullPath w path) = true
  case neg => simp [download_handler, hseg, hpre] at h
  cases hmeta : w.metadata with
  | none => simp [download_handler, hseg, hpre, hmeta] at h
  | some md =>
    cases hopen : w.openOk with
    | false => simp [download_handler, hseg, hpre, hmeta, hopen] at h
    | true =>
      cases hguess : w.guessResult with
      | none => simp [download_handler, hseg, hpre, hmeta, hopen, hguess] at h
      | some fmtOpt =>
        cases fmtOpt with
        | none => simp [download_handler, hseg, hpre, hmeta, hopen, hguess] at h
        | some fmt =>
          cases hdec : w.intoDecoderOk with
          | false => simp [download_handler, hseg, hpre, hmeta, hopen, hguess, hdec] at h
          | true =>
            cases hor : w.orientationVal with
            | none => simp [download_handler, hseg, hpre, hmeta, hopen, hguess, hdec, hor] at h
            | some o =>
              cases himg : w.decodeResult with
              | none =>
                simp [download_handler, hseg, hpre, hmeta, hopen, hguess, hdec, hor, himg] at h
              | some img0 =>
                cases henc : w.encode (processImage params (w.applyOrientation o img0)) fmt with
                | none =>
                  simp [download_handler, hseg, hpre, hmeta, hopen, hguess, hdec, hor, himg,
                        henc] at h
                | some bs =>
                  refine ⟨md, fmt, o, img0, bs, rfl, rfl, rfl, rfl, rfl, rfl, henc, ?_⟩
                  simp [download_handler, hseg, hpre, hmeta, hopen, hguess, hdec, hor, himg,
                        henc] at h
                  exact h.symm

/-- C3: the encoded format is guessed from file content (the
`with_guessed_format` sniff); an I/O failure of the sniff yields
InternalError, and a sniff that cannot determine the format also yields
InternalError, because decoder construction requires a determined format. -/
theorem c3_format_guess_errors :
    (∀ (w : DownloadWorld) (path : String) (params : ResizeParams) (md : FsMetadata),
        (splitSlash path).any (fun seg => headIsDot seg) = false →
        (parsePath (w.imageDir.getD "images")).isPrefixOf (downloadFullPath w path) = true →
        w.metadata = some md → w.openOk = true →
        w.guessResult = none →
        download_handler w path params = Except.error Status.internalError) ∧
    (∀ (w : DownloadWorld) (path : String) (params : ResizeParams) (md : FsMetadata),
        (splitSlash path).any (fun seg => headIsDot seg) = false →
        (parsePath (w.imageDir.getD "images")).isPrefixOf (downloadFullPath w path) = true →
        w.metadata = some md → w.openOk = true →
        w.guessResult = some none →
        download_handler w path params = Except.error Status.internalError) := by
  constructor <;>
    · intro w path params md hseg hpre hmeta hopen hguess
      simp [download_handler, hseg, hpre, hmeta, hopen, hguess]

/-- Witness for c3_format_guess_errors in a sniff-I/O-failure world and a
format-undetermined world. -/
theorem c3_format_guess_witness :
    download_handler wGuessErr "a" p0 = Except.error Status.internalError ∧
    download_handler wGuessUnknown "a" p0 = Except.error Status.internalError :=
  ⟨c3_format_guess_errors.1 wGuessErr "a" p0
      { isDir := false, len := 10, modified := some 5 } (by decide) (by decide) rfl rfl rfl,
   c3_format_guess_errors.2 wGuessUnknown "a" p0
      { isDir := false, len := 10, modified := some 5 } (by decide) (by decide) rfl rfl rfl⟩

/-- When either dimension parameter is absent, the resize step is the
identity (main.rs lines 182-190 fall through to the undecorated image). -/
theorem processImage_missing (params : ResizeParams)
    (h : params.width = none ∨ params.height = none) (img : Image) :
    processImage params img = img := by
  cases hw : params.width with
  | none => simp [processImage, hw]
  | some W =>
    cases hh : params.height with
    | none => simp [processImage, hw, hh]
    | some H => rcases h with h | h <;> simp_all

/-- C4: resizing is applied only when both `width` and `height` are present;
with either absent, the processed image is the decoded image itself, and any
successful response serves the re-encoding of the orientation-normalized
decode unmodified. -/
theorem c4_no_resize_when_missing :
    ∀ (params : ResizeParams), params.width = none ∨ params.height = none →
      (∀ img : Image, processImage params img = img) ∧
      (∀ (w : DownloadWorld) (path : String) (r : DownloadResponse),
          download_handler w path params = Except.ok r →
          ∃ fmt o img0,
            w.guessResult = some (some fmt) ∧ w.orientationVal = some o ∧
            w.decodeResult = some img0 ∧
            w.encode (w.applyOrientation o img0) fmt = some r.body) := by
  intro params hp
  refine ⟨processImage_missing params hp, ?_⟩
  intro w path r h
  obtain ⟨md, fmt, o, img0, bs, hmeta, hopen, hguess, hdec, hor, himg, henc, hr⟩ :=
    download_ok_shape w path params r h
  refine ⟨fmt, o, img0, hguess, hor, himg, ?_⟩
  rw [processImage_missing params hp] at henc
  rw [hr]
  exact henc

/-- Witness for c4_no_resize_when_missing with no parameters supplied. -/
theorem c4_no_resize_witness :
    processImage p0 img43 = img43 ∧
    download_handler okDownloadWorld "a" p0 = Except.ok cOkR :=
  ⟨(c4_no_resize_when_missing p0 (Or.inl rfl)).1 img43, by decide⟩

/-- C7: every successful download re-encodes the processed pixel buffer into
the originally detected format, whatever the resize parameters, and the
Content-Type comes from the fixed table of main.rs lines 200-208, with every
format outside the six explicit entries mapped to the generic binary type. -/
theorem c7_reencode_content_type :
    (∀ (w : DownloadWorld) (path : String) (params : ResizeParams) (r : DownloadResponse),
        download_handler w path params = Except.ok r →
        ∃ fmt o img0 bs,
          w.guessResult = some (some fmt) ∧ w.orientationVal = some o ∧
          w.decodeResult = some img0 ∧
          w.encode (processImage params (w.applyOrientation o img0)) fmt = some bs ∧
          r.body = bs ∧ r.contentType = contentTypeFor fmt) ∧
    (contentTypeFor ImageFormat.png = "image/png" ∧
     contentTypeFor ImageFormat.jpeg = "image/jpeg" ∧
     contentTypeFor ImageFormat.gif = "image/gif" ∧
     contentTypeFor ImageFormat.webp = "image/webp" ∧
     contentTypeFor ImageFormat.avif = "image/avif" ∧
     contentTypeFor ImageFormat.tiff = "image/tiff") ∧
    (∀ f : ImageFormat,
        f ≠ ImageFormat.png → f ≠ ImageFormat.jpeg → f ≠ ImageFormat.gif →
        f ≠ ImageFormat.webp → f ≠ ImageFormat.avif → f ≠ ImageFormat.tiff →
        contentTypeFor f = "application/octet-stream") := by
  refine ⟨?_, by decide, ?_⟩
  · intro w path params r h
    obtain ⟨md, fmt, o, img0, bs, hmeta, hopen, hguess, hdec, hor, himg, henc, hr⟩ :=
      download_ok_shape w path params r h
    exact ⟨fmt, o, img0, bs, hguess, hor, himg, henc, by rw [hr], by rw [hr]⟩
  · intro f h1 h2 h3 h4 h5 h6
    cases f <;> simp_all [contentTypeFor]

/-- Witness for c7_reencode_content_type on the all-success PNG world. -/
theorem c7_reencode_witness :
    cOkR.contentType = contentTypeFor ImageFormat.png ∧ cOkR.body = [1, 2, 3] := by
  obtain ⟨fmt, o, img0, bs, hguess, hor, himg, henc, hb, hct⟩ :=
    c7_reencode_content_type.1 okDownloadWorld "a" p0 cOkR (by decide)
  have hfmt : ImageFormat.png = fmt := by simpa [okDownloadWorld] using hguess
  have hbs : [1, 2, 3] = bs := by simpa [okDownloadWorld] using henc
  exact ⟨by rw [hct, ← hfmt], by rw [hb, ← hbs]⟩

/-- C8: every successful download response carries
`Cache-Control: public, max-age=31536000`, and when the source file's
modification time is readable the Last-Modified header is that time rendered
by the RFC-2822 formatter. -/
theorem c8_cache_headers :
    ∀ (w : DownloadWorld) (path : String) (params : ResizeParams) (r : DownloadResponse)
      (md : FsMetadata) (t : Nat),
      download_handler w path params = Except.ok r →
      w.metadata = some md → md.modified = some t →
      r.cacheControl = "public, max-age=31536000" ∧ r.lastModified = w.rfc2822 t := by
  intro w path params r md t h hmeta hmod
  obtain ⟨md', fmt, o, img0, bs, hmeta', hopen, hguess, hdec, hor, himg, henc, hr⟩ :=
    download_ok_shape w path params r h
  rw [hmeta] at hmeta'
  have hmd : md = md' := Option.some.inj hmeta'
  subst hmd
  rw [hr, hmod]
  exact ⟨rfl, rfl⟩

/-- Witness for c8_cache_headers on the all-success PNG world. -/
theorem c8_cache_headers_witness :
    cOkR.cacheControl = "public, max-age=31536000" ∧
    cOkR.lastModified = okDownloadWorld.rfc2822 5 :=
  c8_cache_headers okDownloadWorld "a" p0 cOkR
    { isDir := false, len := 10, modified := some 5 } 5 (by decide) rfl rfl

/-- Rounding a rational bounded by a natural stays bounded by it. -/
theorem ratRound_le {q : ℚ} {n : Nat} (h : q ≤ (n : ℚ)) : ratRound q ≤ n := by
  unfold ratRound
  have hhalf : Int.floor ((1 : ℚ) / 2) = 0 := by
    rw [Int.floor_eq_zero_iff]
    constructor <;> norm_num
  have h2 : Int.floor ((n : ℚ) + 1 / 2) = (n : ℤ) := by
    rw [Int.floor_nat_add, hhalf, add_zero]
  have h1 : Int.floor (q + 1 / 2) ≤ (n : ℤ) := by
    rw [← h2]
    exact Int.floor_le_floor (by linarith)
  exact Int.toNat_le.mpr h1

/-- The aspect-preserving dimension computation fits within the requested
bounding box whenever the source and the request are nondegenerate. -/
theorem resizeDimensions_fits {ow oh nw nh : Nat}
    (how : 0 < ow) (hoh : 0 < oh) (hnw : 0 < nw) (hnh : 0 < nh) :
    (resizeDimensions ow oh nw nh).1 ≤ nw ∧ (resizeDimensions ow oh nw nh).2 ≤ nh := by
  have how' : (0 : ℚ) < (ow : ℚ) := by exact_mod_cast how
  have hoh' : (0 : ℚ) < (oh : ℚ) := by exact_mod_cast hoh
  have hw : (ow : ℚ) * min ((nw : ℚ) / (ow : ℚ)) ((nh : ℚ) / (oh : ℚ)) ≤ (nw : ℚ) := by
    have h1 : (ow : ℚ) * min ((nw : ℚ) / (ow : ℚ)) ((nh : ℚ) / (oh : ℚ)) ≤
        (ow : ℚ) * ((nw : ℚ) / (ow : ℚ)) :=
      mul_le_mul_of_nonneg_left (min_le_left _ _) (le_of_lt how')
    have h2 : (ow : ℚ) * ((nw : ℚ) / (ow : ℚ)) = (nw : ℚ) := by
      field_simp
    linarith
  have hh : (oh : ℚ) * min ((nw : ℚ) / (ow : ℚ)) ((nh : ℚ) / (oh : ℚ)) ≤ (nh : ℚ) := by
    have h1 : (oh : ℚ) * min ((nw : ℚ) / (ow : ℚ)) ((nh : ℚ) / (oh : ℚ)) ≤
        (oh : ℚ) * ((nh : ℚ) / (oh : ℚ)) :=
      mul_le_mul_of_nonneg_left (min_le_right _ _) (le_of_lt hoh')
    have h2 : (oh : ℚ) * ((nh : ℚ) / (oh : ℚ)) = (nh : ℚ) := by
      field_simp
    linarith
  constructor
  · simp only [resizeDimensions]
    exact max_le (ratRound_le hw) hnw
  · simp only [resizeDimensions]
    exact max_le (ratRound_le hh) hnh

/-- C5: with both dimensions supplied, `preserve_aspect_ratio = true` invokes
the aspect-preserving scale-to-fit (output within the requested bounding box,
both dimensions scaled by one common nonnegative ratio before rounding),
while `preserve_aspect_ratio` false or absent (the default) yields exactly
the requested width and height. -/
theorem c5_resize_modes :
    ∀ (params : ResizeParams) (W H : Nat) (img : Image),
      params.width = some W → params.height = some H →
      ((params.preserveAspect = some true →
          processImage params img = resize img W H ∧
          (0 < W → 0 < H → 0 < img.width → 0 < img.height →
            (processImage params img).width ≤ W ∧
            (processImage params img).height ≤ H ∧
            ∃ r : ℚ, 0 ≤ r ∧
              (processImage params img).width = max (ratRound ((img.width : ℚ) * r)) 1 ∧
              (processImage params img).height = max (ratRound ((img.height : ℚ) * r)) 1)) ∧
       ((params.preserveAspect = none ∨ params.preserveAspect = some false) →
          (processImage params img).width = W ∧ (processImage params img).height = H)) := by
  intro params W H img hw hh
  constructor
  · intro hp
    have hresize : processImage params img = resize img W H := by
      simp [processImage, hw, hh, hp]
    refine ⟨hresize, ?_⟩
    intro hW hH how hoh
    rw [hresize]
    have hfits := @resizeDimensions_fits img.width img.height W H how hoh hW hH
    refine ⟨hfits.1, hfits.2,
      ⟨min ((W : ℚ) / (img.width : ℚ)) ((H : ℚ) / (img.height : ℚ)), ?_, ?_, ?_⟩⟩
    · exact le_min (by positivity) (by positivity)
    · simp [resize, resizeDimensions]
    · simp [resize, resizeDimensions]
  · intro hp
    have hfalse : params.preserveAspect.getD false = false := by
      rcases hp with hp | hp <;> simp [hp]
    constructor <;> simp [processImage, hw, hh, hfalse, resize_exact]

/-- Witness for c5_resize_modes: a 100x50 request on a 200x200 source stays
within the box when preserving aspect ratio and is exactly 100x50 when not. -/
theorem c5_resize_modes_witness :
    (processImage pTrue img200).width ≤ 100 ∧ (processImage pTrue img200).height ≤ 50 ∧
    (processImage pFalse img200).width = 100 ∧ (processImage pFalse img200).height = 50 := by
  have ht := c5_resize_modes pTrue 100 50 img200 rfl rfl
  have hf := c5_resize_modes pFalse 100 50 img200 rfl rfl
  obtain ⟨hw1, hh1, -⟩ := (ht.1 rfl).2 (by decide) (by decide) (by decide) (by decide)
  obtain ⟨hw2, hh2⟩ := hf.2 (Or.inr rfl)
  exact ⟨hw1, hh1, hw2, hh2⟩

/-- The match arms of the extension classifier coincide with membership in
the allowlist. -/
theorem isImageExt_iff (e : String) : isImageExt e = true ↔ e ∈ imageExtensions := by
  simp only [isImageExt, imageExtensions, Bool.or_eq_true, decide_eq_true_eq,
    List.mem_cons, List.not_mem_nil, or_false]
  tauto

/-- Running the listing loop over an iterator with no iteration errors
produces exactly the filterMap of the per-child classification. -/
theorem entriesLoop_map_some (now : Nat) (items : List DirEntry) :
    entriesLoop now (items.map some) = Except.ok (items.filterMap (entryOf now)) := by
  induction items with
  | nil => rfl
  | cons e rest ih =>
    simp only [List.map_cons, entriesLoop, List.filterMap_cons]
    by_cases hd : headIsDot e.name = true
    · simp [hd, entryOf, ih]
    · cases hm : e.meta with
      | none => simp [hd, hm, entryOf, ih]
      | some m => simp [hd, hm, entryOf, ih]

/-- C6: for a directory listing whose iterator yields no errors, the result
is exactly one entry per direct child whose name does not begin with `.` and
whose metadata is readable, in enumeration order; children are classified as
`directory` when the is_dir probe holds, as `image` when the lowercased
extension is in the allowlist, and as `file` otherwise. -/
theorem c6_listing_entries :
    (∀ (w : ListWorld) (path : String) (md : FsMetadata) (items : List DirEntry),
        (parsePath (w.imageDir.getD "images")).isPrefixOf (listFullPath w path) = true →
        headIsDot path = false →
        w.metadata = some md → md.isDir = true →
        w.readDir = some (items.map some) →
        list_handler w path = Except.ok (ListResponse.dir (items.filterMap (entryOf w.now)))) ∧
    (∀ (now : Nat) (e : DirEntry), headIsDot e.name = true → entryOf now e = none) ∧
    (∀ (ext : Option String), get_entry_type true ext = "directory") ∧
    (∀ (e : String), get_entry_type false (some e) =
        if lowerAscii e ∈ imageExtensions then "image" else "file") ∧
    get_entry_type false none = "file" := by
  refine ⟨?_, ?_, ?_, ?_, rfl⟩
  · intro w path md items hpre hdot hmeta hdir hread
    simp [list_handler, hpre, hdot, hmeta, hdir, hread, entriesLoop_map_some, Except.map]
  · intro now e h
    simp [entryOf, h]
  · intro ext
    rfl
  · intro e
    by_cases h : lowerAscii e ∈ imageExtensions
    · simp [get_entry_type, h, (isImageExt_iff (lowerAscii e)).mpr h]
    · have hx : ¬ isImageExt (lowerAscii e) = true := fun hc => h ((isImageExt_iff _).mp hc)
      simp [get_entry_type, h, hx]

/-- Witness for c6_listing_entries on the spec's example directory: exactly
three entries, with the dotfile excluded. -/
theorem c6_listing_entries_witness :
    list_handler wListDir "" = Except.ok (ListResponse.dir
      [{ name := "a.png", type := "image", size := 3, modified := 2 },
       { name := "notes.txt", type := "file", size := 4, modified := 2 },
       { name := "sub", type := "directory", size := 0, modified := 2 }]) := by
  have h := c6_listing_entries.1 wListDir ""
    { isDir := true, len := 0, modified := some 1 } demoEntries
    (by decide) (by decide) rfl rfl rfl
  exact h.trans (by decide)

/-- C9: in detail mode a failing dimension probe is non-fatal — the handler
still succeeds and reports width and height 0,0. -/
theorem c9_dimension_probe_nonfatal :
    ∀ (w : ListWorld) (path : String) (md : FsMetadata),
      (parsePath (w.imageDir.getD "images")).isPrefixOf (listFullPath w path) = true →
      headIsDot path = false →
      w.metadata = some md → md.isDir = false →
      w.imageDimensions = none →
      list_handler w path = Except.ok (ListResponse.file
        { name := fileName (listFullPath w path),
          size := md.len,
          modified := md.modified.getD w.now,
          width := 0, height := 0,
          download_url := "/download/" ++ path,
          type := get_entry_type w.fullIsDir
            ((fileName (listFullPath w path)).bind extension) }) := by
  intro w path md hpre hdot hmeta hdir hdim
  simp [list_handler, hpre, hdot, hmeta, hdir, hdim]

/-- Witness for c9_dimension_probe_nonfatal on a file whose probe fails. -/
theorem c9_dimension_probe_witness :
    list_handler wListFile "a.png" = Except.ok (ListResponse.file
      { name := some "a.png", size := 8, modified := 3, width := 0, height := 0,
        download_url := "/download/a.png", type := "image" }) := by
  have h := c9_dimension_probe_nonfatal wListFile "a.png"
    { isDir := false, len := 8, modified := some 3 } (by decide) (by decide) rfl rfl rfl
  exact h.trans (by decide)

end Imscale
